import Mathlib

/-!
Verification development for the habit-tracker analytics engine
(`src/app/dashboard.py`).

The record table (`habits`) has columns `date`, `habit_name`, `completed`;
it is embedded as a `List CompletionRecord`.  A pandas `DataFrame` of these
rows is a list of records; column extraction is `List.map`, row filtering is
`List.filter`, `sort_values("date")` is an insertion sort on the date
column, and `groupby(keys)["completed"].mean()` is: collect the distinct
keys (first-occurrence order) and pair each with the mean of `completed`
over the rows having that key.  Means are rational numbers; dates are
calendar dates (year, month, day).  `dt.year`/`dt.month` read the calendar
fields and `dt.isocalendar().week` is the ISO-8601 week number, embedded
below by the standard ISO week algorithm.
-/

/-- A calendar date, as stored in the `date` column. -/
structure Date where
  year : Nat
  month : Nat
  day : Nat
deriving DecidableEq, Repr

/-- Chronological order on dates (lexicographic on year, month, day);
this is the order `sort_values("date")` sorts by. -/
def Date.le (a b : Date) : Prop :=
  a.year < b.year ∨ (a.year = b.year ∧
    (a.month < b.month ∨ (a.month = b.month ∧ a.day ≤ b.day)))

/-- Strict chronological order on dates. -/
def Date.lt (a b : Date) : Prop :=
  a.year < b.year ∨ (a.year = b.year ∧
    (a.month < b.month ∨ (a.month = b.month ∧ a.day < b.day)))

instance : DecidableRel Date.le := fun a b =>
  decidable_of_iff (a.year < b.year ∨ (a.year = b.year ∧
    (a.month < b.month ∨ (a.month = b.month ∧ a.day ≤ b.day)))) Iff.rfl

instance : DecidableRel Date.lt := fun a b =>
  decidable_of_iff (a.year < b.year ∨ (a.year = b.year ∧
    (a.month < b.month ∨ (a.month = b.month ∧ a.day < b.day)))) Iff.rfl

/-- One row of the `habits` table. -/
structure CompletionRecord where
  date : Date
  habit_name : String
  completed : Int
deriving DecidableEq, Repr

/-- `POINTS_PER_HABIT = 10` (dashboard.py line 11). -/
def POINTS_PER_HABIT : Int := 10

/-! ### ISO-8601 calendar arithmetic (embedding of `dt.isocalendar()`) -/

/-- Gregorian leap-year test. -/
def isLeap (y : Nat) : Bool :=
  (y % 4 == 0 && y % 100 != 0) || y % 400 == 0

/-- Days in the months strictly before month `m` of a year. -/
def daysBeforeMonth (m : Nat) (leap : Bool) : Nat :=
  let feb := if leap then 29 else 28
  match m with
  | 1 => 0
  | 2 => 31
  | 3 => 31 + feb
  | 4 => 62 + feb
  | 5 => 92 + feb
  | 6 => 123 + feb
  | 7 => 153 + feb
  | 8 => 184 + feb
  | 9 => 215 + feb
  | 10 => 245 + feb
  | 11 => 276 + feb
  | _ => 306 + feb

/-- Ordinal day of the year (1 = January 1st). -/
def dayOfYear (d : Date) : Nat :=
  daysBeforeMonth d.month (isLeap d.year) + d.day

/-- Rata-die day number: 0001-01-01 is day 1 (a Monday). -/
def rataDie (d : Date) : Nat :=
  365 * (d.year - 1) + (d.year - 1) / 4 + (d.year - 1) / 400
    - (d.year - 1) / 100 + dayOfYear d

/-- ISO weekday: 1 = Monday .. 7 = Sunday. -/
def isoWeekday (d : Date) : Nat :=
  (rataDie d - 1) % 7 + 1

/-- Weekday of December 31st of year `y` (0 = Sunday convention),
used by the 52/53-week rule. -/
def yearEndDay (y : Nat) : Nat :=
  (y + y / 4 + y / 400 - y / 100) % 7

/-- Number of ISO weeks in year `y`: 53 exactly when the year starts on a
Thursday or is a leap year starting on a Wednesday. -/
def weeksInYear (y : Nat) : Nat :=
  if yearEndDay y = 4 ∨ yearEndDay (y - 1) = 3 then 53 else 52

/-- ISO-8601 week number of a date (what `dt.isocalendar().week` returns). -/
def isoWeek (d : Date) : Nat :=
  let w := (dayOfYear d + 10 - isoWeekday d) / 7
  if w = 0 then weeksInYear (d.year - 1)
  else if w = 53 ∧ weeksInYear d.year = 52 then 1
  else w

/-- ISO-8601 week-numbering year of a date (what `dt.isocalendar().year`
returns); it differs from the calendar year near January 1st. -/
def isoYear (d : Date) : Nat :=
  let w := (dayOfYear d + 10 - isoWeekday d) / 7
  if w = 0 then d.year - 1
  else if w = 53 ∧ weeksInYear d.year = 52 then d.year + 1
  else d.year

/-! ### Sorting by date (embedding of `sort_values("date")`) -/

/-- Insert a record into a date-sorted list, keeping it sorted. -/
def insertByDate (r : CompletionRecord) : List CompletionRecord → List CompletionRecord
  | [] => [r]
  | s :: rest =>
    if Date.le r.date s.date then r :: s :: rest else s :: insertByDate r rest

/-- Sort a record list by ascending date (`sort_values("date")`). -/
def sortByDate : List CompletionRecord → List CompletionRecord
  | [] => []
  | r :: rest => insertByDate r (sortByDate rest)

/-! ### Streak Calculator (`calculate_streak`, dashboard.py lines 48-60) -/

/-- The loop body of `calculate_streak`: walk the `completed` column (already
reversed), add 1 while the value is 1, and break at the first other value. -/
def streakLoop : List Int → Int
  | [] => 0
  | c :: rest => if c = 1 then streakLoop rest + 1 else 0

/-- `calculate_streak(df, habit)`: filter the rows to `habit_name == habit`,
sort them by date, then run the counting loop over the reversed `completed`
column. -/
def calculate_streak (df : List CompletionRecord) (habit : String) : Int :=
  let habit_df := sortByDate (df.filter (fun r => decide (r.habit_name = habit)))
  streakLoop (habit_df.map (·.completed)).reverse

/-- Specification-side reading of the streak loop: the length of the maximal
suffix of ones of the (date-ordered) `completed` sequence — count from the
most recent backward while `completed = 1`, stop at the first other value. -/
def trailingOnes (l : List Int) : Nat :=
  (l.reverse.takeWhile (fun c => decide (c = 1))).length

/-! ### Daily metrics (dashboard.py lines 98-105) -/

/-- The mean of an integer column as a rational (`Series.mean()`). -/
def listMean (l : List Int) : ℚ :=
  (l.sum : ℚ) / (l.length : ℚ)

/-- `daily_df = df[df["date"] == selected_date]` (line 98). -/
def dailyRecords (df : List CompletionRecord) (selected_date : Date) : List CompletionRecord :=
  df.filter (fun r => decide (r.date = selected_date))

/-- `daily_completion_pct` (lines 100-105): mean of `completed` × 100 on the
selected date, or 0 when no record has that date. -/
def daily_completion_pct (df : List CompletionRecord) (selected_date : Date) : ℚ :=
  if dailyRecords df selected_date = [] then 0
  else listMean ((dailyRecords df selected_date).map (·.completed)) * 100

/-- `daily_points` (lines 100-105): sum of `completed` × `POINTS_PER_HABIT`
on the selected date, or 0 when no record has that date. -/
def daily_points (df : List CompletionRecord) (selected_date : Date) : Int :=
  if dailyRecords df selected_date = [] then 0
  else ((dailyRecords df selected_date).map (·.completed)).sum * POINTS_PER_HABIT

/-! ### Grouped aggregations (dashboard.py lines 176-187, 206-216, 259-265) -/

/-- The distinct keys of a list, first occurrence first (the group keys a
`groupby` produces). -/
def keysOf {K : Type} [DecidableEq K] : List K → List K
  | [] => []
  | k :: rest => k :: (keysOf rest).filter (fun x => decide (x ≠ k))

/-- `df.groupby(key)["completed"].mean() * 100`: each distinct key of the
frame paired with the completion percentage of its rows. -/
def groupPcts {K : Type} [DecidableEq K] (key : CompletionRecord → K)
    (df : List CompletionRecord) : List (K × ℚ) :=
  (keysOf (df.map key)).map (fun k =>
    (k, listMean ((df.filter (fun r => decide (key r = k))).map (·.completed)) * 100))

/-- The weekly grouping key the code builds (lines 178-181):
`year=df["date"].dt.year` — the calendar year — and
`week=df["date"].dt.isocalendar().week` — the ISO week number. -/
def weekKey (r : CompletionRecord) : Nat × Nat :=
  (r.date.year, isoWeek r.date)

/-- The `weekly` frame (lines 176-187): group by `(year, week)` and turn the
mean of `completed` into `completion_pct`. -/
def weekly (df : List CompletionRecord) : List ((Nat × Nat) × ℚ) :=
  groupPcts weekKey df

/-- The weekly grouping key as the specification words it: the ISO-8601
(year, week) pair of the date, both fields from the ISO week calendar. -/
def isoWeekKey (r : CompletionRecord) : Nat × Nat :=
  (isoYear r.date, isoWeek r.date)

/-- Weekly aggregation as the specification words it: group under the
ISO-8601 (year, week number) period key and take the mean of `completed`
times 100.  Kept separate from `weekly` so the two can be compared. -/
def isoWeeklySpec (df : List CompletionRecord) : List ((Nat × Nat) × ℚ) :=
  groupPcts isoWeekKey df

/-- The monthly grouping key (lines 208-211): calendar year and month. -/
def monthKey (r : CompletionRecord) : Nat × Nat :=
  (r.date.year, r.date.month)

/-- The `monthly` frame (lines 206-216): group by `(year, month)` and turn
the mean of `completed` into `completion_pct`. -/
def monthly (df : List CompletionRecord) : List ((Nat × Nat) × ℚ) :=
  groupPcts monthKey df

/-- The `habit_progress` frame (lines 259-265): group by `habit_name` and
turn the mean of `completed` into `completion_pct`. -/
def habit_progress (df : List CompletionRecord) : List (String × ℚ) :=
  groupPcts (·.habit_name) df

/-! ### Concrete record sets used as witnesses -/

/-- "Read" on 2025-01-01..04 with completed \x5b1,1,0,1\x5d, and "Exercise" on
the same four dates with completed \x5b1,1,1,1\x5d. -/
def exampleDf : List CompletionRecord :=
  [⟨⟨2025, 1, 1⟩, "Read", 1⟩, ⟨⟨2025, 1, 2⟩, "Read", 1⟩,
   ⟨⟨2025, 1, 3⟩, "Read", 0⟩, ⟨⟨2025, 1, 4⟩, "Read", 1⟩,
   ⟨⟨2025, 1, 1⟩, "Exercise", 1⟩, ⟨⟨2025, 1, 2⟩, "Exercise", 1⟩,
   ⟨⟨2025, 1, 3⟩, "Exercise", 1⟩, ⟨⟨2025, 1, 4⟩, "Exercise", 1⟩]

/-- "Read" on three dates with calendar gaps, all completed. -/
def gappedDf : List CompletionRecord :=
  [⟨⟨2025, 1, 1⟩, "Read", 1⟩, ⟨⟨2025, 1, 5⟩, "Read", 1⟩,
   ⟨⟨2025, 3, 10⟩, "Read", 1⟩]

/-- Two habits on 2025-03-10, one completed and one not. -/
def twoHabitDf : List CompletionRecord :=
  [⟨⟨2025, 3, 10⟩, "Read", 1⟩, ⟨⟨2025, 3, 10⟩, "Exercise", 0⟩]

/-- A single record on 2024-12-30, a date whose ISO week-numbering year
(2025) differs from its calendar year (2024). -/
def yearBoundaryDf : List CompletionRecord :=
  [⟨⟨2024, 12, 30⟩, "Read", 1⟩]

/-! ### Helper lemmas -/

theorem Date.le_of_lt {a b : Date} (h : Date.lt a b) : Date.le a b := by
  unfold Date.lt at h
  unfold Date.le
  omega

theorem Date.le_of_not_le {a b : Date} (h : ¬ Date.le a b) : Date.le b a := by
  unfold Date.le at *
  omega

theorem streakLoop_eq_length_takeWhile (l : List Int) :
    streakLoop l = ((l.takeWhile (fun c => decide (c = 1))).length : ℤ) := by
  induction l with
  | nil => rfl
  | cons c t ih =>
    by_cases h : c = 1
    · simp [streakLoop, List.takeWhile_cons, h, ih]
    · simp [streakLoop, List.takeWhile_cons, h]

theorem streakLoop_nonneg (l : List Int) : 0 ≤ streakLoop l := by
  rw [streakLoop_eq_length_takeWhile]
  exact Int.natCast_nonneg _

theorem length_takeWhile_le_length (p : Int → Bool) (l : List Int) :
    (l.takeWhile p).length ≤ l.length := by
  induction l with
  | nil => simp
  | cons a t ih =>
    by_cases h : p a
    · simp only [List.takeWhile_cons, h, if_true, List.length_cons]
      omega
    · simp [List.takeWhile_cons, h]

theorem length_insertByDate (r : CompletionRecord) (l : List CompletionRecord) :
    (insertByDate r l).length = l.length + 1 := by
  induction l with
  | nil => rfl
  | cons s t ih =>
    by_cases h : Date.le r.date s.date
    · simp [insertByDate, h]
    · simp [insertByDate, h, ih]

theorem length_sortByDate (l : List CompletionRecord) :
    (sortByDate l).length = l.length := by
  induction l with
  | nil => rfl
  | cons r t ih => simp [sortByDate, length_insertByDate, ih]

theorem sortByDate_of_sorted (l : List CompletionRecord)
    (h : List.Chain' (fun a b => Date.le a.date b.date) l) : sortByDate l = l := by
  induction l with
  | nil => rfl
  | cons a t ih =>
    cases t with
    | nil => rfl
    | cons b t' =>
      rw [List.chain'_cons] at h
      calc sortByDate (a :: b :: t') = insertByDate a (sortByDate (b :: t')) := rfl
        _ = insertByDate a (b :: t') := by rw [ih h.2]
        _ = a :: b :: t' := by simp [insertByDate, h.1]

theorem insertByDate_append_last (r x : CompletionRecord)
    (h : Date.le r.date x.date) (s : List CompletionRecord) :
    insertByDate r (s ++ [x]) = insertByDate r s ++ [x] := by
  induction s with
  | nil => simp [insertByDate, h]
  | cons b t ih =>
    by_cases hb : Date.le r.date b.date
    · simp [insertByDate, hb]
    · simp [insertByDate, hb, ih]

theorem sortByDate_append_last (x : CompletionRecord) (l : List CompletionRecord)
    (h : ∀ a ∈ l, Date.le a.date x.date) :
    sortByDate (l ++ [x]) = sortByDate l ++ [x] := by
  induction l with
  | nil => rfl
  | cons a t ih =>
    have ha : Date.le a.date x.date := h a (by simp)
    have ht : ∀ b ∈ t, Date.le b.date x.date := fun b hb => h b (by simp [hb])
    show insertByDate a (sortByDate (t ++ [x])) = insertByDate a (sortByDate t) ++ [x]
    rw [ih ht, insertByDate_append_last a x ha]

theorem mem_keysOf {K : Type} [DecidableEq K] (l : List K) (a : K) :
    a ∈ keysOf l ↔ a ∈ l := by
  induction l with
  | nil => simp [keysOf]
  | cons k rest ih =>
    simp only [keysOf, List.mem_cons, List.mem_filter, decide_eq_true_iff, ih]
    tauto

theorem sum_eq_length_filter_ones (l : List Int)
    (h : ∀ x ∈ l, x = 0 ∨ x = 1) :
    l.sum = ((l.filter (fun x => decide (x = 1))).length : ℤ) := by
  induction l with
  | nil => rfl
  | cons a t ih =>
    have ih' := ih (fun x hx => h x (by simp [hx]))
    rcases h a (by simp) with h0 | h1
    · simp [h0, List.filter_cons, ih']
    · simp [h1, List.filter_cons, ih']
      omega

theorem listMean_bounds (l : List Int) (hne : l ≠ [])
    (h : ∀ x ∈ l, x = 0 ∨ x = 1) : 0 ≤ listMean l ∧ listMean l ≤ 1 := by
  have hlen : 0 < (l.length : ℚ) := by
    have := List.length_pos.mpr hne
    exact_mod_cast this
  have hs0 : (0 : ℤ) ≤ l.sum :=
    List.sum_nonneg fun x hx => by rcases h x hx with h' | h' <;> simp [h']
  have hs1 : l.sum ≤ (l.length : ℤ) := by
    have := List.sum_le_card_nsmul l 1 (fun x hx => by
      rcases h x hx with h' | h' <;> simp [h'])
    simpa using this
  unfold listMean
  constructor
  · apply div_nonneg
    · exact_mod_cast hs0
    · linarith
  · rw [div_le_one hlen]
    exact_mod_cast hs1

theorem groupPcts_bounds {K : Type} [DecidableEq K] (key : CompletionRecord → K)
    (df : List CompletionRecord)
    (hinv : ∀ r ∈ df, r.completed = 0 ∨ r.completed = 1) :
    ∀ p ∈ groupPcts key df, 0 ≤ p.2 ∧ p.2 ≤ 100 := by
  intro p hp
  unfold groupPcts at hp
  rw [List.mem_map] at hp
  obtain ⟨k, hk, rfl⟩ := hp
  have hkmem : k ∈ df.map key := (mem_keysOf _ _).1 hk
  rw [List.mem_map] at hkmem
  obtain ⟨r0, hr0, hkey⟩ := hkmem
  have hmem : r0 ∈ df.filter (fun r => decide (key r = k)) :=
    List.mem_filter.mpr ⟨hr0, by simp [hkey]⟩
  have hlne : (df.filter (fun r => decide (key r = k))).map (·.completed) ≠ [] := by
    intro hcontra
    have : r0.completed ∈ (df.filter (fun r => decide (key r = k))).map (·.completed) :=
      List.mem_map_of_mem _ hmem
    rw [hcontra] at this
    exact List.not_mem_nil _ this
  have hl01 : ∀ x ∈ (df.filter (fun r => decide (key r = k))).map (·.completed),
      x = 0 ∨ x = 1 := by
    intro x hx
    rw [List.mem_map] at hx
    obtain ⟨r, hr, rfl⟩ := hx
    exact hinv r (List.mem_of_mem_filter hr)
  have hb := listMean_bounds _ hlne hl01
  constructor
  · simp only
    nlinarith [hb.1]
  · simp only
    nlinarith [hb.2]

/-! ### Claim theorems -/

/-- C1: for every record set and habit name, `calculate_streak` returns the
length of the maximal all-ones suffix of the `completed` sequence obtained by
filtering the records to that habit and sorting them by date ascending
(count from the most recent record backward while `completed = 1`, stopping
at the first other value); in particular the history \x5b1,1,0,1\x5d of "Read"
yields streak 1 and the history \x5b1,1,1,1\x5d of "Exercise" yields streak 4. -/
theorem streak_is_trailing_ones :
    (∀ (df : List CompletionRecord) (habit : String),
      calculate_streak df habit =
        (trailingOnes ((sortByDate (df.filter (fun r =>
          decide (r.habit_name = habit)))).map (·.completed)) : ℤ)) ∧
    calculate_streak exampleDf "Read" = 1 ∧
    calculate_streak exampleDf "Exercise" = 4 := by
  refine ⟨fun df habit => ?_, by decide, by decide⟩
  unfold calculate_streak trailingOnes
  exact streakLoop_eq_length_takeWhile _

/-- C3: the streak is computed only over the records that exist for the
habit, in date order: for any record set whose records all belong to the
habit and are listed in strictly increasing date order — with arbitrary
calendar gaps between consecutive dates — the streak is exactly the
trailing-ones count of the `completed` sequence.  The dates themselves do
not occur in the result, so a day with no record never breaks the streak;
only an existing record with another `completed` value ends it. -/
theorem streak_ignores_calendar_gaps (rs : List CompletionRecord) (habit : String)
    (hname : ∀ r ∈ rs, r.habit_name = habit)
    (hsorted : List.Chain' (fun a b => Date.lt a.date b.date) rs) :
    calculate_streak rs habit = (trailingOnes (rs.map (·.completed)) : ℤ) := by
  have hfilter : rs.filter (fun r => decide (r.habit_name = habit)) = rs :=
    List.filter_eq_self.mpr (fun a ha => by simp [hname a ha])
  have hchain : List.Chain' (fun a b => Date.le a.date b.date) rs :=
    hsorted.imp (fun _ _ hab => Date.le_of_lt hab)
  unfold calculate_streak
  rw [hfilter, sortByDate_of_sorted rs hchain]
  exact streakLoop_eq_length_takeWhile _

/-- C3 witness: "Read" recorded on 2025-01-01, 2025-01-05 and 2025-03-10
(calendar gaps of 3 and 63 days), all completed — the streak is 3. -/
theorem streak_ignores_calendar_gaps_witness :
    calculate_streak gappedDf "Read" =
      (trailingOnes (gappedDf.map (·.completed)) : ℤ) ∧
    calculate_streak gappedDf "Read" = 3 :=
  ⟨streak_ignores_calendar_gaps gappedDf "Read" (by decide)
    (by simp [gappedDf, List.chain'_cons, Date.lt]), by decide⟩

/-- C5: appending one record for the habit with `completed = 1` and a date
strictly after every existing date of that habit increases the streak by
exactly 1; appending one with `completed = 0` in the same position makes the
streak 0. -/
theorem streak_append_monotone (rs : List CompletionRecord) (habit : String) (d : Date)
    (hafter : ∀ r ∈ rs, r.habit_name = habit → Date.lt r.date d) :
    calculate_streak (rs ++ [⟨d, habit, 1⟩]) habit = calculate_streak rs habit + 1 ∧
    calculate_streak (rs ++ [⟨d, habit, 0⟩]) habit = 0 := by
  have key : ∀ c : Int,
      calculate_streak (rs ++ [⟨d, habit, c⟩]) habit =
        streakLoop (c :: ((sortByDate (rs.filter (fun r =>
          decide (r.habit_name = habit)))).map (·.completed)).reverse) := by
    intro c
    unfold calculate_streak
    rw [List.filter_append]
    have hx : (⟨d, habit, c⟩ : CompletionRecord).habit_name = habit := rfl
    have hfx : List.filter (fun r => decide (r.habit_name = habit))
        [(⟨d, habit, c⟩ : CompletionRecord)] = [⟨d, habit, c⟩] := by
      simp [List.filter_cons, hx]
    rw [hfx]
    have hle : ∀ a ∈ rs.filter (fun r => decide (r.habit_name = habit)),
        Date.le a.date (⟨d, habit, c⟩ : CompletionRecord).date := by
      intro a ha
      rw [List.mem_filter] at ha
      exact Date.le_of_lt (hafter a ha.1 (by simpa using ha.2))
    rw [sortByDate_append_last _ _ hle]
    simp
  constructor
  · rw [key 1]
    unfold calculate_streak
    simp [streakLoop]
  · rw [key 0]
    simp [streakLoop]

/-- C5 witness: "Read" in `exampleDf` has latest date 2025-01-04 and
streak 1; appending a completed record on 2025-01-05 makes it 2, appending a
missed record there makes it 0. -/
theorem streak_append_monotone_witness :
    calculate_streak (exampleDf ++ [⟨⟨2025, 1, 5⟩, "Read", 1⟩]) "Read" =
      calculate_streak exampleDf "Read" + 1 ∧
    calculate_streak (exampleDf ++ [⟨⟨2025, 1, 5⟩, "Read", 0⟩]) "Read" = 0 :=
  streak_append_monotone exampleDf "Read" ⟨2025, 1, 5⟩ (by decide)

/-- C7: for every habit name with no records in the set — including names
that appear in no record at all — `calculate_streak` returns 0. -/
theorem streak_unknown_habit (df : List CompletionRecord) (habit : String)
    (h : ∀ r ∈ df, r.habit_name ≠ habit) : calculate_streak df habit = 0 := by
  unfold calculate_streak
  have hnil : df.filter (fun r => decide (r.habit_name = habit)) = [] := by
    rw [List.filter_eq_nil_iff]
    intro a ha
    simp [h a ha]
  rw [hnil]
  rfl

/-- C7 witness: "Yoga" appears in no record of `exampleDf`, and its streak
is 0. -/
theorem streak_unknown_habit_witness : calculate_streak exampleDf "Yoga" = 0 :=
  streak_unknown_habit exampleDf "Yoga" (by decide)

/-- C10: the streak is a non-negative integer bounded by the number of
records of the target habit in the set. -/
theorem streak_bounded (df : List CompletionRecord) (habit : String) :
    0 ≤ calculate_streak df habit ∧
    calculate_streak df habit ≤
      ((df.filter (fun r => decide (r.habit_name = habit))).length : ℤ) := by
  unfold calculate_streak
  refine ⟨streakLoop_nonneg _, ?_⟩
  rw [streakLoop_eq_length_takeWhile]
  have hle : ((((sortByDate (df.filter (fun r => decide (r.habit_name = habit)))).map
      (·.completed)).reverse.takeWhile (fun c => decide (c = 1))).length : ℕ) ≤
      (df.filter (fun r => decide (r.habit_name = habit))).length := by
    calc _ ≤ (((sortByDate (df.filter (fun r => decide (r.habit_name = habit)))).map
          (·.completed)).reverse).length := length_takeWhile_le_length _ _
      _ = (df.filter (fun r => decide (r.habit_name = habit))).length := by
          rw [List.length_reverse, List.length_map, length_sortByDate]
  exact_mod_cast hle

/-- C4: on the selected date, when records exist for it and all `completed`
values are 0 or 1, the completion percentage is the mean of the `completed`
values times 100 and the point score is the number of completed records
times `POINTS_PER_HABIT`; in particular two habits on 2025-03-10 with
`completed` 1 and 0 give percentage 50 and points 1 × `POINTS_PER_HABIT`. -/
theorem daily_metrics_formula :
    (∀ (df : List CompletionRecord) (d : Date), dailyRecords df d ≠ [] →
      (∀ r ∈ df, r.completed = 0 ∨ r.completed = 1) →
      daily_completion_pct df d =
        listMean ((dailyRecords df d).map (·.completed)) * 100 ∧
      daily_points df d =
        ((dailyRecords df d).filter (fun r => decide (r.completed = 1))).length *
          POINTS_PER_HABIT) ∧
    daily_completion_pct twoHabitDf ⟨2025, 3, 10⟩ = 50 ∧
    daily_points twoHabitDf ⟨2025, 3, 10⟩ = 1 * POINTS_PER_HABIT := by
  refine ⟨fun df d hne hinv => ⟨?_, ?_⟩, ?_, by decide⟩
  · unfold daily_completion_pct
    rw [if_neg hne]
  · unfold daily_points
    rw [if_neg hne]
    have h01 : ∀ x ∈ (dailyRecords df d).map (·.completed), x = 0 ∨ x = 1 := by
      intro x hx
      rw [List.mem_map] at hx
      obtain ⟨r, hr, rfl⟩ := hx
      exact hinv r (List.mem_of_mem_filter hr)
    rw [sum_eq_length_filter_ones _ h01, List.filter_map, List.length_map]
    rfl
  · unfold daily_completion_pct
    rw [if_neg (by decide)]
    norm_num [dailyRecords, twoHabitDf, listMean, List.filter_cons]

/-- C4 witness: the formulas instantiated on the two-habit set on
2025-03-10. -/
theorem daily_metrics_formula_witness :
    daily_completion_pct twoHabitDf ⟨2025, 3, 10⟩ =
      listMean ((dailyRecords twoHabitDf ⟨2025, 3, 10⟩).map (·.completed)) * 100 ∧
    daily_points twoHabitDf ⟨2025, 3, 10⟩ =
      ((dailyRecords twoHabitDf ⟨2025, 3, 10⟩).filter
        (fun r => decide (r.completed = 1))).length * POINTS_PER_HABIT :=
  daily_metrics_formula.1 twoHabitDf ⟨2025, 3, 10⟩ (by decide) (by decide)

/-- C6: on the empty record set every aggregation returns an empty result
and the daily metrics are 0% and 0 points, for every reference date. -/
theorem empty_set_all_empty :
    (∀ d : Date, daily_completion_pct [] d = 0 ∧ daily_points [] d = 0) ∧
    weekly [] = [] ∧ monthly [] = [] ∧ habit_progress [] = [] :=
  ⟨fun _ => ⟨rfl, rfl⟩, rfl, rfl, rfl⟩

/-- C2 counterexample: the weekly aggregation does NOT group by the ISO-8601
(year, week) period key.  2024-12-30 belongs to ISO week 1 of ISO year 2025,
but the code pairs the ISO week number with the calendar year
(`dt.year`), producing the key (2024, 1) instead of (2025, 1). -/
theorem weekly_key_not_iso_year :
    (weekly yearBoundaryDf).map Prod.fst = [(2024, 1)] ∧
    (isoWeeklySpec yearBoundaryDf).map Prod.fst = [(2025, 1)] ∧
    weekly yearBoundaryDf ≠ isoWeeklySpec yearBoundaryDf :=
  ⟨by decide, by decide, by decide⟩

/-- C2 (amended): the weekly aggregation groups each record under the period
key (calendar year of the date, ISO-8601 week number of the date), and each
group's value is the mean of `completed` over the records with that key,
times 100. -/
theorem weekly_grouping_formula (df : List CompletionRecord)
    (k : Nat × Nat) (v : ℚ) :
    (k, v) ∈ weekly df ↔
      (∃ r ∈ df, weekKey r = k) ∧
      v = listMean ((df.filter (fun r => decide (weekKey r = k))).map
        (·.completed)) * 100 := by
  unfold weekly groupPcts
  rw [List.mem_map]
  constructor
  · rintro ⟨k', hk', heq⟩
    rw [Prod.mk.injEq] at heq
    obtain ⟨rfl, rfl⟩ := heq
    have hmem := (mem_keysOf _ _).1 hk'
    rw [List.mem_map] at hmem
    exact ⟨hmem, rfl⟩
  · rintro ⟨⟨r, hr, hkr⟩, rfl⟩
    exact ⟨k, (mem_keysOf _ _).2 (List.mem_map.mpr ⟨r, hr, hkr⟩), rfl⟩

/-- C8: with all `completed` values 0 or 1 and a non-empty record set, every
completion percentage produced by the daily, weekly, monthly and per-habit
aggregations lies in \x5b0, 100\x5d. -/
theorem pct_within_bounds (df : List CompletionRecord) (d : Date)
    (_hne : df ≠ [])
    (hinv : ∀ r ∈ df, r.completed = 0 ∨ r.completed = 1) :
    (0 ≤ daily_completion_pct df d ∧ daily_completion_pct df d ≤ 100) ∧
    (∀ p ∈ weekly df, 0 ≤ p.2 ∧ p.2 ≤ 100) ∧
    (∀ p ∈ monthly df, 0 ≤ p.2 ∧ p.2 ≤ 100) ∧
    (∀ p ∈ habit_progress df, 0 ≤ p.2 ∧ p.2 ≤ 100) := by
  refine ⟨?_, groupPcts_bounds _ _ hinv, groupPcts_bounds _ _ hinv,
    groupPcts_bounds _ _ hinv⟩
  by_cases hd : dailyRecords df d = []
  · unfold daily_completion_pct
    rw [if_pos hd]
    norm_num
  · unfold daily_completion_pct
    rw [if_neg hd]
    have hlne : (dailyRecords df d).map (·.completed) ≠ [] := by
      intro hc
      exact hd (List.map_eq_nil_iff.mp hc)
    have h01 : ∀ x ∈ (dailyRecords df d).map (·.completed), x = 0 ∨ x = 1 := by
      intro x hx
      rw [List.mem_map] at hx
      obtain ⟨r, hr, rfl⟩ := hx
      exact hinv r (List.mem_of_mem_filter hr)
    have hb := listMean_bounds _ hlne h01
    constructor
    · nlinarith [hb.1]
    · nlinarith [hb.2]

/-- C8 witness: the bounds instantiated on the eight-record example set with
reference date 2025-01-01. -/
theorem pct_within_bounds_witness :
    (exampleDf ≠ [] ∧ ∀ r ∈ exampleDf, r.completed = 0 ∨ r.completed = 1) ∧
    ((0 ≤ daily_completion_pct exampleDf ⟨2025, 1, 1⟩ ∧
      daily_completion_pct exampleDf ⟨2025, 1, 1⟩ ≤ 100) ∧
    (∀ p ∈ weekly exampleDf, 0 ≤ p.2 ∧ p.2 ≤ 100) ∧
    (∀ p ∈ monthly exampleDf, 0 ≤ p.2 ∧ p.2 ≤ 100) ∧
    (∀ p ∈ habit_progress exampleDf, 0 ≤ p.2 ∧ p.2 ≤ 100)) :=
  ⟨⟨by decide, by decide⟩,
    pct_within_bounds exampleDf ⟨2025, 1, 1⟩ (by decide) (by decide)⟩

theorem map_fst_groupPcts {K : Type} [DecidableEq K] (key : CompletionRecord → K)
    (df : List CompletionRecord) :
    (groupPcts key df).map Prod.fst = keysOf (df.map key) := by
  unfold groupPcts
  rw [List.map_map]
  have h : (Prod.fst ∘ fun k => (k, listMean ((df.filter (fun r =>
      decide (key r = k))).map (·.completed)) * 100)) = id := rfl
  rw [h, List.map_id]

/-- C9: the period keys of the weekly aggregation are exactly the distinct
(year, ISO week) pairs of the input dates, and those of the monthly
aggregation exactly the distinct (year, month) pairs — no spurious and no
missing keys. -/
theorem grouping_keys_complete (df : List CompletionRecord) (k : Nat × Nat) :
    (k ∈ (weekly df).map Prod.fst ↔ k ∈ df.map weekKey) ∧
    (k ∈ (monthly df).map Prod.fst ↔ k ∈ df.map monthKey) := by
  unfold weekly monthly
  rw [map_fst_groupPcts, map_fst_groupPcts]
  exact ⟨mem_keysOf _ _, mem_keysOf _ _⟩
